import Mathlib

/-!
Verification development for the PO review / palletizing backend.

The definitions below are shallow embeddings of the Python sources:
  * `backend/services/palletizer.py`     (`Palletizer.calculate_pallets`)
  * `backend/services/palletizer_emd.py` (`PalletizerEMD.calculate_pallets`)
  * `backend/services/validator.py`      (`validate_po_data`)
  * `backend/routers/mmd.py`             (`validate_po_pair` reconciliation core)

Machine integers are modelled as `Int`.  Python floats are modelled by
`PyFloat`, an exact fraction `num / den` that is *not* reduced to lowest
terms (so that every operation is a plain `Int` computation the kernel
can evaluate); `PyFloat.toRat` gives its mathematical value in `ℚ`.  For
all the concrete inputs appearing below the IEEE-754 arithmetic of the
source is exact, so this exact model agrees with it.  Python `//` / `%`
are floor division and floor modulo, i.e. `Int.fdiv` / `Int.fmod`;
Python `int(x)` on a float truncates toward zero, i.e. `Int.tdiv` of the
fraction.  Python dicts preserve insertion order and are modelled as
ordered association lists.
-/

/-! ## Definitions: the shallow embeddings and the records they operate on -/

/-- Exact model of a Python float: the fraction `num / den`, not
necessarily in lowest terms.  All operations keep `den` positive
whenever the operands have positive `den`. -/
structure PyFloat where
  num : Int
  den : Int
  deriving DecidableEq

/-- Build a fraction, normalizing the sign so that the denominator of a
well-formed operand stays nonnegative. -/
def PyFloat.mk' (n d : Int) : PyFloat :=
  if d < 0 then ⟨-n, -d⟩ else ⟨n, d⟩

def PyFloat.ofInt (n : Int) : PyFloat := ⟨n, 1⟩

instance : OfNat PyFloat n := ⟨⟨(n : Int), 1⟩⟩

def PyFloat.add (a b : PyFloat) : PyFloat :=
  ⟨a.num * b.den + b.num * a.den, a.den * b.den⟩

def PyFloat.sub (a b : PyFloat) : PyFloat :=
  ⟨a.num * b.den - b.num * a.den, a.den * b.den⟩

def PyFloat.mul (a b : PyFloat) : PyFloat :=
  ⟨a.num * b.num, a.den * b.den⟩

/-- Float division `a / b` (total here; the Python source raises
`ZeroDivisionError` instead when `b == 0`, and theorems that quantify
over inputs carry positivity hypotheses where that matters). -/
def PyFloat.div (a b : PyFloat) : PyFloat :=
  PyFloat.mk' (a.num * b.den) (a.den * b.num)

instance : Add PyFloat := ⟨PyFloat.add⟩

instance : Sub PyFloat := ⟨PyFloat.sub⟩

instance : Mul PyFloat := ⟨PyFloat.mul⟩

instance : Div PyFloat := ⟨PyFloat.div⟩

/-- Order on fractions with positive denominators (cross
multiplication). -/
instance : LT PyFloat := ⟨fun a b => a.num * b.den < b.num * a.den⟩

instance : LE PyFloat := ⟨fun a b => a.num * b.den ≤ b.num * a.den⟩

instance (a b : PyFloat) : Decidable (a < b) :=
  inferInstanceAs (Decidable (a.num * b.den < b.num * a.den))

instance (a b : PyFloat) : Decidable (a ≤ b) :=
  inferInstanceAs (Decidable (a.num * b.den ≤ b.num * a.den))

/-- Python `int(x)`: truncation toward zero (`Int.tdiv` is T-division). -/
def PyFloat.trunc (x : PyFloat) : Int := Int.tdiv x.num x.den

/-- The mathematical value of a float model. -/
def PyFloat.toRat (x : PyFloat) : ℚ := (x.num : ℚ) / (x.den : ℚ)

/-- Python `round(x, 1)` on an exact value: round `10·x` to the nearest
integer, ties to even (banker's rounding), divide by 10. -/
def PyFloat.round1 (x : PyFloat) : PyFloat :=
  let a := x.num * 10
  let b := x.den
  let q := Int.fdiv a b
  let r := a - q * b
  let n := if 2 * r < b then q else if 2 * r > b then q + 1
           else if q % 2 = 0 then q else q + 1
  ⟨n, 10⟩

/-- Python `f"P{n:03d}"` zero padding. -/
def pad3 (n : Nat) : String :=
  if n < 10 then "00" ++ toString n
  else if n < 100 then "0" ++ toString n
  else toString n

/-- Pallet id string, `f"P{counter:03d}"` in the source. -/
def palletId (n : Nat) : String := "P" ++ pad3 n

/-- One entry of `order_items` as read by `Palletizer.calculate_pallets`:
`item['SKU']`, `item['Qty']`, `item.get('dc_id','Unknown')`,
`item.get('box_weight',15)`, `item.get('box_height',10)`,
`item.get('desc','')`, `item.get('pack_size',1)`.  The field
`max_cartons_per_pallet` is supplied per item by the caller in
`routers/mmd.py` (line 596, `Max_Cartons_per_Pallet` with default 20);
`Palletizer.calculate_pallets` itself never reads it. -/
structure OrderItem where
  sku : String
  qty : Int
  dc_id : String
  box_weight : PyFloat
  box_height : PyFloat
  desc : String
  pack_size : Int
  max_cartons_per_pallet : Int
  deriving DecidableEq

/-- A per-SKU line on an output pallet (`{'sku':…,'qty':…,'desc':…}`;
the display-only payload fields `unit_qty` / `pack_size` are omitted). -/
structure PalletLine where
  sku : String
  qty : Int
  desc : String
  deriving DecidableEq

/-- An output pallet dict of `Palletizer.calculate_pallets`. -/
structure Pallet where
  pallet_id : String
  dc_id : String
  ptype : String
  items : List PalletLine
  total_cases : Int
  est_height : PyFloat
  est_weight : PyFloat
  deriving DecidableEq

/-- A `mixed_candidates` entry (`palletizer.py` lines 82-89). -/
structure MixedCand where
  sku : String
  qty : Int
  desc : String
  box_weight : PyFloat
  box_height : PyFloat
  pack_size : Int
  deriving DecidableEq

/-- Sum of the `qty` fields of a pallet line list (`sum(i['qty'] for i in …)`). -/
def linesTotal (ls : List PalletLine) : Int :=
  (ls.map (fun l => l.qty)).sum

/-- The per-item full-pallet capacity (`palletizer.py` lines 42-58):
`ti = 10`, `max_layers_height = int((68-6)/box_height)`,
`max_cases_weight = int((2500-40)/box_weight)`,
`max_cases_per_pallet = min(max_layers_height*ti, max_cases_weight)`,
clamped to 1 when `<= 0`. -/
def maxCasesPerPallet (i : OrderItem) : Int :=
  let ti : Int := 10
  let max_layers_height : Int := (((68 : PyFloat) - 6) / i.box_height).trunc
  let max_cases_weight : Int := (((2500 : PyFloat) - 40) / i.box_weight).trunc
  let m := min (max_layers_height * ti) max_cases_weight
  if m ≤ 0 then 1 else m

/-- The FULL pallets emitted for one item (`palletizer.py` lines 64-79):
`n` copies with ids `P{counter}`, `P{counter+1}`, …, each holding
`max_cases_per_pallet` cartons of the single SKU. -/
def fullPalletsFor (counter : Nat) (i : OrderItem) (n : Nat) : List Pallet :=
  (List.range n).map (fun k =>
    { pallet_id := palletId (counter + k)
      dc_id := i.dc_id
      ptype := "FULL"
      items := [{ sku := i.sku, qty := maxCasesPerPallet i, desc := i.desc }]
      total_cases := maxCasesPerPallet i
      est_height := (PyFloat.ofInt (maxCasesPerPallet i) / 10) * i.box_height + 6
      est_weight := PyFloat.ofInt (maxCasesPerPallet i) * i.box_weight + 40 })

/-- State threaded through phase 1 of a DC group: emitted pallets, the
global pallet counter, and the accumulated `mixed_candidates` queue. -/
structure P1State where
  pallets : List Pallet
  counter : Nat
  mixed : List MixedCand
  deriving DecidableEq

/-- Phase-1 processing of one order item (`palletizer.py` lines 34-89):
`full_count = qty // max_cases`, `remainder = qty % max_cases` (Python
floor division/modulo), emit `full_count` FULL pallets (none when
`full_count <= 0`, as `range` of a nonpositive count is empty) and
enqueue the remainder as a mixed candidate when positive. -/
def fullStep (st : P1State) (i : OrderItem) : P1State :=
  let maxc := maxCasesPerPallet i
  let full_count := Int.fdiv i.qty maxc
  let remainder := Int.fmod i.qty maxc
  let n := full_count.toNat
  { pallets := st.pallets ++ fullPalletsFor st.counter i n
    counter := st.counter + n
    mixed := if remainder > 0 then
        st.mixed ++ [{ sku := i.sku, qty := remainder, desc := i.desc,
                       box_weight := i.box_weight, box_height := i.box_height,
                       pack_size := i.pack_size }]
      else st.mixed }

/-- State of the mixed-packing loop: emitted pallets, counter, the open
`current_mixed` line list and its `current_weight`. -/
structure MixState where
  pallets : List Pallet
  counter : Nat
  current : List PalletLine
  weight : PyFloat
  deriving DecidableEq

/-- Add a single carton of a candidate to the open line list
(`palletizer.py` lines 131-142): bump the first line with the same SKU,
else append a fresh line with qty 1. -/
def addBox : List PalletLine → MixedCand → List PalletLine
  | [], c => [{ sku := c.sku, qty := 1, desc := c.desc }]
  | l :: ls, c =>
      if l.sku = c.sku then { l with qty := l.qty + 1 } :: ls
      else l :: addBox ls c

/-- One iteration of the inner `while qty_to_pack > 0` loop
(`palletizer.py` lines 103-145): compute the estimated next height
`((total // 10) + 1) * 12 + 6` and next weight; if either exceeds the
limit (68 / 2500), close the current pallet (recording the offending
estimated height and the pre-box weight) and start a fresh one; then add
one carton and its weight. -/
def mixIter (dc : String) (st : MixState) (c : MixedCand) : MixState :=
  let t := linesTotal st.current
  let layers := Int.fdiv t 10 + 1
  let est_next_height : Int := layers * 12 + 6
  let est_next_weight : PyFloat := st.weight + c.box_weight
  let st1 :=
    if (2500 : PyFloat) < est_next_weight ∨ 68 < est_next_height then
      { pallets := st.pallets ++
          [{ pallet_id := palletId st.counter, dc_id := dc, ptype := "MIXED",
             items := st.current, total_cases := t,
             est_height := PyFloat.ofInt est_next_height, est_weight := st.weight }]
        counter := st.counter + 1
        current := []
        weight := (40 : PyFloat) }
    else st
  { st1 with current := addBox st1.current c, weight := st1.weight + c.box_weight }

/-- The inner loop run `n` times for one candidate. -/
def packCandGo (dc : String) (c : MixedCand) : Nat → MixState → MixState
  | 0, st => st
  | n + 1, st => packCandGo dc c n (mixIter dc st c)

/-- Pack one whole candidate (`while qty_to_pack > 0`, decremented by 1
each iteration). -/
def packCand (dc : String) (st : MixState) (c : MixedCand) : MixState :=
  packCandGo dc c c.qty.toNat st

/-- Phase 2 over the candidate queue (`for item in mixed_candidates`). -/
def packMixed (dc : String) (st : MixState) (cands : List MixedCand) : MixState :=
  cands.foldl (packCand dc) st

/-- Final flush (`palletizer.py` lines 147-158): emit the leftover open
pallet, with `est_height` hard-coded to 50, when it is nonempty. -/
def flushMixed (dc : String) (st : MixState) : List Pallet × Nat :=
  if st.current.isEmpty then (st.pallets, st.counter)
  else
    (st.pallets ++
      [{ pallet_id := palletId st.counter, dc_id := dc, ptype := "MIXED",
         items := st.current, total_cases := linesTotal st.current,
         est_height := (50 : PyFloat), est_weight := st.weight }],
     st.counter + 1)

/-- Insert an item into the ordered group list keyed by `dc_id`
(Python dict insertion-order semantics, `palletizer.py` lines 19-24). -/
def groupAdd : List (String × List OrderItem) → OrderItem → List (String × List OrderItem)
  | [], i => [(i.dc_id, [i])]
  | (d, g) :: gs, i =>
      if d = i.dc_id then (d, g ++ [i]) :: gs
      else (d, g) :: groupAdd gs i

/-- `dc_groups`: items grouped by `dc_id`, groups in first-appearance
order, each group in item order. -/
def dcGroups (items : List OrderItem) : List (String × List OrderItem) :=
  items.foldl groupAdd []

/-- Process one DC group: phase 1 over its items, then phase 2 over the
resulting mixed candidates, then the final flush.  Returns the pallets
emitted for this group and the updated global counter. -/
def processDC (counter : Nat) (dc : String) (items : List OrderItem) :
    List Pallet × Nat :=
  let p1 := items.foldl fullStep { pallets := [], counter := counter, mixed := [] }
  let m := packMixed dc
    { pallets := p1.pallets, counter := p1.counter, current := [], weight := (40 : PyFloat) }
    p1.mixed
  flushMixed dc m

/-- Shallow embedding of `Palletizer.calculate_pallets`
(`palletizer.py` lines 14-160): group by DC, then per group emit FULL
pallets followed by MIXED pallets, with one global pallet counter
starting at 1. -/
def calculate_pallets (items : List OrderItem) : List Pallet :=
  ((dcGroups items).foldl
    (fun (acc : List Pallet × Nat) g =>
      let r := processDC acc.2 g.1 g.2
      (acc.1 ++ r.1, r.2))
    ([], 1)).1

/-- One entry of `order_items` as read by `PalletizerEMD.calculate_pallets`:
`item['Qty']`, `item.get('box_height', 10)`, `item['SKU']`, `item['desc']`. -/
structure EmdItem where
  sku : String
  qty : Int
  box_height : PyFloat
  desc : String
  deriving DecidableEq

/-- An item line on an EMD pallet (`{'sku':…,'qty':…,'desc':…}`). -/
structure EmdLine where
  sku : String
  qty : Int
  desc : String
  deriving DecidableEq

/-- An in-progress EMD pallet (before the final summary pass). -/
structure EmdPallet where
  pallet_id : String
  ptype : String
  items : List EmdLine
  current_height : PyFloat
  deriving DecidableEq

/-- A finished EMD pallet, after the final pass adds `total_cases` and
the rounded `est_height`. -/
structure EmdPalletOut where
  pallet_id : String
  ptype : String
  items : List EmdLine
  total_cases : Int
  est_height : PyFloat
  deriving DecidableEq

/-- State of the EMD packing loop: the closed pallets (in order), the
open pallet (the last element of the source's `pallets` list, mutated in
place) and the pallet counter. -/
structure EmdState where
  closed : List EmdPallet
  current : EmdPallet
  counter : Nat
  deriving DecidableEq

/-- The fresh pallet the EMD packer starts with, and creates on
overflow (`palletizer_emd.py` lines 33-39 and 55-62). -/
def emdFresh (n : Nat) : EmdPallet :=
  { pallet_id := palletId n, ptype := "EMD_MIXED", items := [],
    current_height := (6 : PyFloat) }

/-- Add one carton of an item to the open EMD pallet's line list
(bump the first line with the same SKU, else append). -/
def emdAddBox : List EmdLine → EmdItem → List EmdLine
  | [], i => [{ sku := i.sku, qty := 1, desc := i.desc }]
  | l :: ls, i =>
      if l.sku = i.sku then { l with qty := l.qty + 1 } :: ls
      else l :: emdAddBox ls i

/-- One iteration of the inner `while qty_to_pack > 0` loop
(`palletizer_emd.py` lines 49-77): height increment `box_height / 10`;
if the open pallet would exceed `max_height`, close it and open a fresh
one; then add one carton and the increment. -/
def emdStep (maxHeight : Int) (item : EmdItem) (st : EmdState) : EmdState :=
  let inc := item.box_height / (10 : PyFloat)
  let st1 :=
    if PyFloat.ofInt maxHeight < st.current.current_height + inc then
      { closed := st.closed ++ [st.current],
        current := emdFresh (st.counter + 1),
        counter := st.counter + 1 }
    else st
  { st1 with current :=
      { st1.current with
          items := emdAddBox st1.current.items item,
          current_height := st1.current.current_height + inc } }

/-- The inner loop run `n` times for one item. -/
def emdPackGo (maxHeight : Int) (item : EmdItem) : Nat → EmdState → EmdState
  | 0, st => st
  | n + 1, st => emdPackGo maxHeight item n (emdStep maxHeight item st)

/-- Pack one whole EMD item (`while qty_to_pack > 0`). -/
def emdPackItem (maxHeight : Int) (st : EmdState) (item : EmdItem) : EmdState :=
  emdPackGo maxHeight item item.qty.toNat st

/-- The final summary pass (`palletizer_emd.py` lines 79-82):
`total_cases = sum(qty)`, `est_height = round(current_height, 1)`. -/
def emdFinish (p : EmdPallet) : EmdPalletOut :=
  { pallet_id := p.pallet_id, ptype := p.ptype, items := p.items,
    total_cases := (p.items.map (fun l => l.qty)).sum,
    est_height := p.current_height.round1 }

/-- Shallow embedding of `PalletizerEMD.calculate_pallets`
(`palletizer_emd.py` lines 26-84), parameterized by the configured
`MAX_HEIGHT` (`int(config.get('pallet_max_height', 68))`). -/
def emd_calculate_pallets (maxHeight : Int) (items : List EmdItem) : List EmdPalletOut :=
  let st := items.foldl (emdPackItem maxHeight)
    { closed := [], current := emdFresh 1, counter := 1 }
  (st.closed ++ [st.current]).map emdFinish

/-- Status string constants of `validator.py` lines 14-18. -/
def STATUS_OK : String := "OK"

def STATUS_INVENTORY_LOW : String := "⚠️ Inventory Low"

def STATUS_OUT_OF_STOCK : String := "🚨 Out of Stock"

def STATUS_PRICE_MISMATCH : String := "가격 불일치"

def STATUS_PRODUCT_MISSING : String := "제품 미등록"

/-- One parsed PO line as read by `validate_po_data`: `item['sku']`
(modelled as already stripped), `item['po_qty']`, `item['unit_cost']`,
`item.get('is_mother_po', False)`, `item.get('stock_mode', default)`
(modelled as already stripped/uppercased). -/
structure PoLine where
  sku : String
  po_qty : Int
  unit_cost : PyFloat
  is_mother_po : Bool
  stock_mode : Option String
  dc_id : String
  deriving DecidableEq

/-- An inventory record: `{'total':…, 'locations': {'MAIN':…, 'SUB':…}}`
with the integer defaults already applied. -/
structure InvRecord where
  total : Int
  main : Int
  sub : Int
  deriving DecidableEq

/-- A product record as used by the validator: only
`KeyAccountPrice_TJX` is read.  `none` models a SKU whose
`product_map.get(sku, {})` is empty (the `if not prod_data` branch). -/
structure ProdRecord where
  price : PyFloat
  deriving DecidableEq

/-- The derived fields of one validated item (`validator.py` lines
125-145).  `shortage` is the value stored under the `'shortage'` key. -/
structure ValidatedItem where
  sku : String
  po_qty : Int
  status : String
  status_label : String
  inventory_status : String
  main_stock : Int
  sub_stock : Int
  total_stock : Int
  available_main_stock : Int
  available_sub_stock : Int
  available_total_stock : Int
  available_stock : Int
  required_qty : Int
  shortage : Int
  transfer_from_sub : Int
  remaining_shortage : Int
  deriving DecidableEq

/-- Mode normalization: `str(mode).strip().upper()` then membership in
`{MAIN, SUB, TOTAL}` with fallback `TOTAL` (strip/upper is modelled as
the identity: inputs are taken already canonical). -/
def normMode (m : String) : String :=
  if m = "MAIN" ∨ m = "SUB" ∨ m = "TOTAL" then m else "TOTAL"

/-- Per-item body of the `for item in parsed_data_list` loop of
`validate_po_data` (`validator.py` lines 64-147).  `defaultMode` is the
already-normalized `default_stock_mode`; `safety` the resolved
`effective_safety_stock`. -/
def validateItem (invMap : String → Option InvRecord)
    (prodMap : String → Option ProdRecord) (safety : Int)
    (defaultMode : String) (item : PoLine) : ValidatedItem :=
  let mode := normMode (item.stock_mode.getD defaultMode)
  let inv := (invMap item.sku).getD { total := 0, main := 0, sub := 0 }
  let available_main := max 0 (inv.main - safety)
  let available_sub := max 0 (inv.sub - safety)
  let available_total := max 0 (inv.total - safety)
  let available_stock :=
    if mode = "MAIN" then available_main
    else if mode = "SUB" then available_sub
    else available_total
  let system_cost := match prodMap item.sku with
    | some p => p.price
    | none => (0 : PyFloat)
  let required_qty := item.po_qty
  let shortage := max 0 (required_qty - available_stock)
  let inventory_status :=
    if shortage = 0 then STATUS_OK
    else if available_stock > 0 then STATUS_INVENTORY_LOW
    else STATUS_OUT_OF_STOCK
  let transfer_from_sub :=
    if mode = "MAIN" ∧ shortage > 0 ∧ available_sub > 0 then
      min available_sub shortage
    else 0
  let remaining_shortage := max 0 (shortage - transfer_from_sub)
  let status_label :=
    if (prodMap item.sku).isNone then STATUS_PRODUCT_MISSING
    else if item.is_mother_po ∨
        ((0 : PyFloat) < item.unit_cost ∧ (0 : PyFloat) < system_cost) then
      (if (1 : PyFloat) / 100 < (item.unit_cost - system_cost) ∨
          (1 : PyFloat) / 100 < (system_cost - item.unit_cost) then
        STATUS_PRICE_MISMATCH
      else STATUS_OK)
    else if system_cost.num = 0 then
      STATUS_PRODUCT_MISSING
    else STATUS_OK
  { sku := item.sku
    po_qty := item.po_qty
    status := if status_label = STATUS_OK then inventory_status else status_label
    status_label := status_label
    inventory_status := inventory_status
    main_stock := inv.main
    sub_stock := inv.sub
    total_stock := inv.total
    available_main_stock := available_main
    available_sub_stock := available_sub
    available_total_stock := available_total
    available_stock := available_stock
    required_qty := required_qty
    shortage := remaining_shortage
    transfer_from_sub := transfer_from_sub
    remaining_shortage := remaining_shortage }

/-- Shallow embedding of `validate_po_data` (`validator.py` lines
32-149): normalize the requested stock mode, then map the per-item
validation over the parsed lines. -/
def validate_po_data (invMap : String → Option InvRecord)
    (prodMap : String → Option ProdRecord) (safety : Int)
    (stockMode : String) (items : List PoLine) : List ValidatedItem :=
  items.map (validateItem invMap prodMap safety (normMode stockMode))

/-- One parsed line of a mother or DC PO as read by the reconciliation
core of `validate_po_pair`: `item.get('sku','')` (modelled as already
stripped), `item.get('po_qty',0)` via `safe_int`, `item.get('dc_id','')`
and `item.get('unit_cost',0.0)`. -/
structure ParsedLine where
  sku : String
  po_qty : Int
  dc_id : String
  unit_cost : PyFloat
  deriving DecidableEq

/-- Ordered association list lookup (`dict.get`). -/
def alGet (m : List (String × Int)) (k : String) : Option Int :=
  (m.find? (fun e => e.1 = k)).map (fun e => e.2)

/-- `dict.get(k, d)`. -/
def alGetD (m : List (String × Int)) (k : String) (d : Int) : Int :=
  (alGet m k).getD d

/-- `m[k] = m.get(k, 0) + q` with Python dict insertion-order
semantics: update the existing key in place, else append. -/
def alAdd : List (String × Int) → String → Int → List (String × Int)
  | [], k, q => [(k, q)]
  | (k', v) :: rest, k, q =>
      if k' = k then (k', v + q) :: rest
      else (k', v) :: alAdd rest k q

/-- Per-SKU quantity totals of a document (`mmd.py` lines 314-324 for
the mother PO and 327-338 for the DC PO): fold every line into the
running dict, with no filtering by quantity. -/
def skuTotals (items : List ParsedLine) : List (String × Int) :=
  items.foldl (fun m i => alAdd m i.sku i.po_qty) []

/-- A mismatch record (`mmd.py` lines 357-364 and 372-379; the
`dc_breakdown` list is omitted as display-only payload). -/
structure Mismatch where
  sku : String
  mother_qty : Int
  dc_total : Int
  difference : Int
  status : String
  deriving DecidableEq

/-- The mismatch list (`mmd.py` lines 340-379): for every SKU of the
mother totals, in dict order, an `over`/`under` record when the DC
total differs; then an `extra` record for every SKU of the DC totals
absent from the mother totals. -/
def mismatchesOf (mt dt : List (String × Int)) : List Mismatch :=
  (mt.filterMap (fun e =>
    let dq := alGetD dt e.1 0
    if dq ≠ e.2 then
      some { sku := e.1, mother_qty := e.2, dc_total := dq,
             difference := dq - e.2,
             status := if dq > e.2 then "over" else "under" }
    else none)) ++
  (dt.filterMap (fun e =>
    if alGet mt e.1 = none then
      some { sku := e.1, mother_qty := 0, dc_total := e.2,
             difference := e.2, status := "extra" }
    else none))

/-- `all_skus = list(set(mother keys + dc keys))` (`mmd.py` line 382).
Python's set iteration order is unspecified; the claims below only use
order-independent consequences, and the model fixes first-appearance
order. -/
def allSkus (mt dt : List (String × Int)) : List String :=
  ((mt.map (fun e => e.1)) ++ (dt.map (fun e => e.1))).eraseDups

/-- Convert a parsed line to the record shape consumed by
`validate_po_data` (`validate_po_pair` calls it on the raw
`mother_items`; those carry no `is_mother_po` / `stock_mode` keys). -/
def toPoLine (i : ParsedLine) : PoLine :=
  { sku := i.sku, po_qty := i.po_qty, unit_cost := i.unit_cost,
    is_mother_po := false, stock_mode := none, dc_id := i.dc_id }

/-- The outcome of the reconciliation core of `validate_po_pair`. -/
structure PairValidation where
  mismatches : List Mismatch
  warning_skus : List String
  total_units_mother : Int
  total_units_dc : Int
  qty_match : Bool
  is_valid : Bool
  deriving DecidableEq

/-- Shallow embedding of the reconciliation core of `validate_po_pair`
(`mmd.py` lines 314-382, 405-430, 509-510 and 617-633): per-SKU totals
of both documents, the mismatch list, the inventory warnings (mother
lines whose validated `remaining_shortage` is positive, validated in
`TOTAL` mode), the global unit totals accumulated over `all_skus`, and
`is_valid = (no mismatches) and (no inventory warnings) and
(total units match)`. -/
def validate_po_pair (invMap : String → Option InvRecord)
    (prodMap : String → Option ProdRecord) (safety : Int)
    (motherItems dcItems : List ParsedLine) : PairValidation :=
  let mt := skuTotals motherItems
  let dt := skuTotals dcItems
  let ms := mismatchesOf mt dt
  let validated := validate_po_data invMap prodMap safety "TOTAL"
    (motherItems.map toPoLine)
  let warnings := (validated.filter (fun v => v.remaining_shortage > 0)).map
    (fun v => v.sku)
  let tum := ((allSkus mt dt).map (fun s => alGetD mt s 0)).sum
  let tud := ((allSkus mt dt).map (fun s => alGetD dt s 0)).sum
  let qm := tud == tum
  { mismatches := ms
    warning_skus := warnings
    total_units_mother := tum
    total_units_dc := tud
    qty_match := qm
    is_valid := ms.isEmpty && warnings.isEmpty && qm }

/-- Modelled from the spec: the per-item `maxCartonsPerPallet`, "the
per-item value supplied in the input, defaulting to 20 whenever absent
or ≤ 0" (§4.4). -/
def specMaxCt (i : OrderItem) : Int :=
  if i.max_cartons_per_pallet ≤ 0 then 20 else i.max_cartons_per_pallet

/-- A split-queue entry of the spec's packer: a remainder tagged with
its fractional volume `cartonQty / maxCartonsPerPallet`. -/
structure SpecEntry where
  sku : String
  qty : Int
  vol : ℚ
  deriving DecidableEq

/-- Modelled from the spec (§4.4 phase 1): full-pallet extraction with
`unitVolume = 1/maxCartonsPerPallet` — repeatedly remove
`maxCartonsPerPallet` cartons while `cartonQty·unitVolume ≥ 1`, count
the FULL pallets, and push a positive remainder to the split queue with
its fractional volume; items with `cartonQty ≤ 0` are skipped. -/
def specPhase1 (items : List OrderItem) : Nat × List SpecEntry :=
  items.foldl (fun acc i =>
    if i.qty ≤ 0 then acc
    else
      let m := specMaxCt i
      let full := (Int.fdiv i.qty m).toNat
      let rem := Int.fmod i.qty m
      (acc.1 + full,
       if rem > 0 then acc.2 ++ [{ sku := i.sku, qty := rem, vol := (rem : ℚ) / (m : ℚ) }]
       else acc.2))
    (0, [])

/-- Modelled from the spec (§4.4 phase 2): stable insertion of an entry
into a list sorted by descending fractional volume. -/
def insDesc (e : SpecEntry) : List SpecEntry → List SpecEntry
  | [] => [e]
  | x :: xs => if e.vol ≤ x.vol then x :: insDesc e xs else e :: x :: xs

/-- Modelled from the spec: sort the split queue by descending
fractional volume (stable insertion sort). -/
def sortByVolDesc (es : List SpecEntry) : List SpecEntry :=
  es.foldr insDesc []

/-- Modelled from the spec (§4.4 phase 2): place one entry into the
first open bin whose accumulated volume still fits within `1.0`,
opening a new bin when none fits.  A bin is its running volume with its
entry list. -/
def ffdPlace : List (ℚ × List SpecEntry) → SpecEntry → List (ℚ × List SpecEntry)
  | [], e => [(e.vol, [e])]
  | b :: bs, e =>
      if b.1 + e.vol ≤ 1 then (b.1 + e.vol, b.2 ++ [e]) :: bs
      else b :: ffdPlace bs e

/-- Modelled from the spec (§4.4): the full First-Fit-Decreasing
packer — the number of FULL pallets and the list of mixed bins. -/
def specFFDPack (items : List OrderItem) : Nat × List (ℚ × List SpecEntry) :=
  let p1 := specPhase1 items
  (p1.1, (sortByVolDesc p1.2).foldl ffdPlace [])

/-- The `maxCartonsPerPallet` supplied in the input for a SKU: the value
carried by the first input item with that SKU, defaulting to 20 when the
SKU is absent or the carried value is ≤ 0 (the default of
`routers/mmd.py` lines 582-586). -/
def inputMaxCt (items : List OrderItem) (sku : String) : Int :=
  match items.find? (fun i => i.sku = sku) with
  | some i => if i.max_cartons_per_pallet ≤ 0 then 20 else i.max_cartons_per_pallet
  | none => 20

/-- The fractional volume `Σ cartonQty_i / maxCartonsPerPallet_i` of a
pallet, as the spec defines it. -/
def palletVolume (maxCt : String → Int) (p : Pallet) : ℚ :=
  (p.items.map (fun l => (l.qty : ℚ) / ((maxCt l.sku : Int) : ℚ))).sum

/-- Total cartons across a pallet's line entries. -/
def palletCartons (p : Pallet) : Int := linesTotal p.items

/-- Total cartons across all pallets of a packing result. -/
def allCartons (ps : List Pallet) : Int := (ps.map palletCartons).sum

/-- Total input carton quantity. -/
def inputCartons (items : List OrderItem) : Int := (items.map (fun i => i.qty)).sum

/-- A single line of 115 cartons (15 lb, 10 in): the packer's capacity
for it is 60, leaving a remainder of 55 cartons.  Its supplied
`max_cartons_per_pallet` is also 60, so the source's capacity and the
spec's coincide on this input. -/
def cexC1 : List OrderItem :=
  [{ sku := "A", qty := 115, dc_id := "1", box_weight := ⟨15, 1⟩,
     box_height := ⟨10, 1⟩, desc := "", pack_size := 1,
     max_cartons_per_pallet := 60 }]

/-- Two lines of 39 cartons (15 lb, 31 in): capacity 20 for each (also
the supplied `max_cartons_per_pallet`), each leaving a remainder of 19
cartons. -/
def cexC2 : List OrderItem :=
  [{ sku := "A", qty := 39, dc_id := "1", box_weight := ⟨15, 1⟩,
     box_height := ⟨31, 1⟩, desc := "", pack_size := 1,
     max_cartons_per_pallet := 20 },
   { sku := "B", qty := 39, dc_id := "1", box_weight := ⟨15, 1⟩,
     box_height := ⟨31, 1⟩, desc := "", pack_size := 1,
     max_cartons_per_pallet := 20 }]

/-- A single line of 60 cartons (15 lb, 10 in), with supplied
`max_cartons_per_pallet = 20`: the packer's own capacity for it is 60. -/
def cexC3 : List OrderItem :=
  [{ sku := "A", qty := 60, dc_id := "1", box_weight := ⟨15, 1⟩,
     box_height := ⟨10, 1⟩, desc := "", pack_size := 1,
     max_cartons_per_pallet := 20 }]

/-- A single line with negative carton quantity `-5`. -/
def cexC5 : List OrderItem :=
  [{ sku := "A", qty := -5, dc_id := "1", box_weight := ⟨15, 1⟩,
     box_height := ⟨10, 1⟩, desc := "", pack_size := 1,
     max_cartons_per_pallet := 20 }]

/-- The single MIXED pallet the packer emits on `cexC2`. -/
def mixedC2 : Pallet :=
  { pallet_id := "P003", dc_id := "1", ptype := "MIXED",
    items := [{ sku := "A", qty := 19, desc := "" },
              { sku := "B", qty := 19, desc := "" }],
    total_cases := 38, est_height := ⟨50, 1⟩, est_weight := ⟨610, 1⟩ }

/-- Inventory map for the C6 counterexample: SKU "A" has MAIN 5, SUB 10. -/
def invC6 : String → Option InvRecord :=
  fun s => if s = "A" then some { total := 15, main := 5, sub := 10 } else none

/-- Product map giving SKU "A" a registered price of 1.0. -/
def prodC6 : String → Option ProdRecord :=
  fun s => if s = "A" then some { price := ⟨1, 1⟩ } else none

/-- A mother-PO line requesting 10 units of "A" at cost 1.0. -/
def lineC6 : PoLine :=
  { sku := "A", po_qty := 10, unit_cost := ⟨1, 1⟩, is_mother_po := false,
    stock_mode := none, dc_id := "" }

/-- Inventory map for the C7 counterexample: SKU "A" has MAIN 8, SUB 100. -/
def invC7 : String → Option InvRecord :=
  fun s => if s = "A" then some { total := 108, main := 8, sub := 100 } else none

/-- A mother-PO line requesting 20 units of "A". -/
def lineC7 : PoLine :=
  { sku := "A", po_qty := 20, unit_cost := ⟨1, 1⟩, is_mother_po := false,
    stock_mode := none, dc_id := "" }

/-- An empty inventory lookup (every SKU out of stock). -/
def invEmpty : String → Option InvRecord := fun _ => none

/-- An empty product lookup. -/
def prodEmpty : String → Option ProdRecord := fun _ => none

/-- Mother document for the C8 counterexample: 10 units of "S1". -/
def motherC8 : List ParsedLine :=
  [{ sku := "S1", po_qty := 10, dc_id := "", unit_cost := ⟨0, 1⟩ }]

/-- DC document for the C8 counterexample: the same 10 units of "S1". -/
def dcC8 : List ParsedLine :=
  [{ sku := "S1", po_qty := 10, dc_id := "D1", unit_cost := ⟨0, 1⟩ }]

/-- DC document for the C9 counterexample: "S1" appears only with
quantity 0. -/
def dcC9 : List ParsedLine :=
  [{ sku := "S1", po_qty := 0, dc_id := "D1", unit_cost := ⟨0, 1⟩ }]

def nextFitByLimits (dc : String) (st : MixState) (cands : List MixedCand) : MixState :=
  (cands.flatMap (fun c => List.replicate c.qty.toNat c)).foldl (mixIter dc) st

/-- The shape of every pallet created by the mixed phase: it is tagged
MIXED, its carton total is the sum of its line entries, and that total
is at most 50. -/
def MixedMade (p : Pallet) : Prop :=
  p.ptype = "MIXED" ∧ p.total_cases ≤ 50 ∧ p.total_cases = linesTotal p.items

/-- The shape of every FULL pallet emitted in phase 1 for an item:
one line entry of that item's SKU holding its computed weight/height
capacity. -/
def IsFullOf (p : Pallet) (i : OrderItem) : Prop :=
  p.ptype = "FULL" ∧
  p.items = [{ sku := i.sku, qty := maxCasesPerPallet i, desc := i.desc }] ∧
  p.total_cases = maxCasesPerPallet i

/-- A zero-quantity input line. -/
def zeroItem : OrderItem :=
  { sku := "Z", qty := 0, dc_id := "1", box_weight := ⟨15, 1⟩, box_height := ⟨10, 1⟩,
    desc := "", pack_size := 1, max_cartons_per_pallet := 20 }

/-- Sum of candidate quantities. -/
def candSum (cs : List MixedCand) : Int := (cs.map (fun c => c.qty)).sum

/-- Sum of candidate quantities as the loop counts them (`toNat`). -/
def candSumN (cs : List MixedCand) : Int :=
  (cs.map (fun c => (c.qty.toNat : Int))).sum

def groupsCartons (gs : List (String × List OrderItem)) : Int :=
  (gs.map (fun g => inputCartons g.2)).sum

/-! ## Theorems -/

set_option maxRecDepth 40000 in
/-- Claim C1 is false on `cexC1`: the source's second phase splits the
single 55-carton remainder entry across two MIXED pallets (50 + 5
cartons, both of SKU "A"), while the spec's First-Fit-Decreasing packer
places that entry (fractional volume 55/60 ≤ 1) into exactly one bin.
No run of the claimed algorithm can produce two bins here. -/
theorem C1_ffd_counterexample :
    ((calculate_pallets cexC1).filter (fun p => p.ptype = "MIXED")).map
        (fun p => p.items.map (fun l => (l.sku, l.qty))) =
      [[("A", 50)], [("A", 5)]] ∧
    ((specFFDPack cexC1).2).length = 1 := by
  exact ⟨by decide, by decide⟩

set_option maxRecDepth 40000 in
/-- Claim C2 is false on `cexC2`: the packer puts both 19-carton
remainders (each of fractional volume 19/20) on one MIXED pallet, whose
volume `Σ cartonQty_i / maxCartonsPerPallet_i` is 19/10, far above
`1.0 + epsilon` (shown here for epsilon = 1/100; 19/10 exceeds any
epsilon below 9/10).  The supplied `max_cartons_per_pallet` (20) equals
the packer's own computed capacity on this input, so the violation holds
under either reading of `maxCartonsPerPallet`. -/
theorem C2_capacity_counterexample :
    (calculate_pallets cexC2).filter (fun p => p.ptype = "MIXED") = [mixedC2] ∧
    palletVolume (inputMaxCt cexC2) mixedC2 = 19 / 10 ∧
    ¬ ((19 : ℚ) / 10 ≤ 1 + 1 / 100) := by
  refine ⟨by decide, ?_, by norm_num⟩
  have hA : inputMaxCt cexC2 "A" = 20 := by decide
  have hB : inputMaxCt cexC2 "B" = 20 := by decide
  norm_num [palletVolume, mixedC2, hA, hB]

set_option maxRecDepth 40000 in
/-- Claim C3 is false on `cexC3`: the packer emits one FULL pallet of 60
cartons of SKU "A" although the `maxCartonsPerPallet` supplied in the
input for "A" is 20 — the FULL-pallet size comes from the weight/height
capacity (60 here), not from the supplied value. -/
theorem C3_full_pallet_counterexample :
    (calculate_pallets cexC3).map
        (fun p => (p.ptype, p.items.map (fun l => (l.sku, l.qty)))) =
      [("FULL", [("A", 60)])] ∧
    inputMaxCt cexC3 "A" = 20 ∧ ¬ ((60 : Int) ≤ 20) := by
  exact ⟨by decide, by decide, by decide⟩

set_option maxRecDepth 40000 in
/-- Claim C5 is false on `cexC5`: the input line has `cartonQty = -5 ≤ 0`
but is not skipped — Python's floor modulo gives `-5 % 60 = 55`, so the
line contributes 55 cartons of SKU "A" to two MIXED pallets. -/
theorem C5_skip_counterexample :
    (cexC5.map (fun i => i.qty) = [-5]) ∧
    (calculate_pallets cexC5).map
        (fun p => (p.ptype, p.items.map (fun l => (l.sku, l.qty)))) =
      [("MIXED", [("A", 50)]), ("MIXED", [("A", 5)])] := by
  exact ⟨by decide, by decide⟩

/-- Claim C6 is false in MAIN mode: with 10 units required, MAIN 5 and
SUB 10 available (safety stock 0), the SUB transfer clears the shortage
(`remainingShortage = 0`) yet the item's `inventory_status` is
"Inventory Low", not OK — the source computes the status from the
pre-transfer shortage (`validator.py` lines 96-102, before lines
104-107). -/
theorem C6_status_counterexample :
    (validateItem invC6 prodC6 0 "MAIN" lineC6).remaining_shortage = 0 ∧
    (validateItem invC6 prodC6 0 "MAIN" lineC6).inventory_status =
      STATUS_INVENTORY_LOW ∧
    STATUS_INVENTORY_LOW ≠ STATUS_OK := by
  exact ⟨by decide, by decide, by decide⟩

/-- Claim C7 is false in MAIN mode: with 20 units required and MAIN 8
available (safety stock 0), `max(0, requiredQty - availableSelected)`
is 12, but the reported `shortage` field is 0 — the source stores
`remaining_shortage` under the `'shortage'` key (`validator.py` line
139), so the reported value is not the pre-transfer shortage and is
never distinct from `remainingShortage`. -/
theorem C7_shortage_counterexample :
    max 0 ((validateItem invC7 prodC6 0 "MAIN" lineC7).required_qty -
      (validateItem invC7 prodC6 0 "MAIN" lineC7).available_stock) = 12 ∧
    (validateItem invC7 prodC6 0 "MAIN" lineC7).shortage = 0 ∧
    (0 : Int) ≠ 12 := by
  exact ⟨by decide, by decide, by decide⟩

/-- Claim C8 is false on `motherC8` / `dcC8` with empty inventory: the
documents agree per SKU and in total (no mismatch records, equal sums),
yet `is_valid` is `false`, because the source additionally requires the
inventory-warning list to be empty (`mmd.py` line 629) and the 10-unit
shortage of "S1" produces a warning. -/
theorem C8_validity_counterexample :
    (validate_po_pair invEmpty prodEmpty 0 motherC8 dcC8).mismatches = [] ∧
    (validate_po_pair invEmpty prodEmpty 0 motherC8 dcC8).total_units_mother =
      (validate_po_pair invEmpty prodEmpty 0 motherC8 dcC8).total_units_dc ∧
    (validate_po_pair invEmpty prodEmpty 0 motherC8 dcC8).is_valid = false := by
  exact ⟨by decide, by decide, by decide⟩

/-- Claim C9 is false on an empty mother document and `dcC9`: the
zero-quantity line is *not* dropped before aggregation — it creates the
breakdown total `S1 ↦ 0`, and since "S1" is absent from the aggregate
totals the reconciler emits an `extra` mismatch record with quantity 0
(`mmd.py` lines 329-338 and 369-379 have no quantity filter). -/
theorem C9_zero_qty_counterexample :
    (validate_po_pair invEmpty prodEmpty 0 [] dcC9).mismatches =
      [{ sku := "S1", mother_qty := 0, dc_total := 0, difference := 0,
         status := "extra" }] := by
  decide

/-- Claim C6 (amended): the inventory status of a validated item is
computed from the *pre-transfer* shortage `max(0, requiredQty -
availableSelected)`, not from `remainingShortage` — it is OK exactly
when that pre-transfer shortage is 0, "Inventory Low" exactly when it is
positive and `availableSelected > 0`, and "Out of Stock" exactly when it
is positive and `availableSelected = 0`. -/
theorem C6_inventory_status_from_pre_transfer_shortage (invMap : String → Option InvRecord)
    (prodMap : String → Option ProdRecord) (safety : Int)
    (defaultMode : String) (item : PoLine) :
    let v := validateItem invMap prodMap safety defaultMode item
    let pre := max 0 (v.required_qty - v.available_stock)
    (v.inventory_status = STATUS_OK ↔ pre = 0) ∧
    (v.inventory_status = STATUS_INVENTORY_LOW ↔ 0 < pre ∧ 0 < v.available_stock) ∧
    (v.inventory_status = STATUS_OUT_OF_STOCK ↔ 0 < pre ∧ v.available_stock = 0) := by
  intro v pre
  have havail : 0 ≤ v.available_stock := by
    simp only [v, validateItem]
    split <;> [positivity; skip]
    split <;> positivity
  have hstat : v.inventory_status =
      (if pre = 0 then STATUS_OK
       else if 0 < v.available_stock then STATUS_INVENTORY_LOW
       else STATUS_OUT_OF_STOCK) := by
    simp only [v, pre, validateItem, gt_iff_lt]
  rw [hstat]
  have hpre : 0 ≤ pre := le_max_left 0 _
  split_ifs with h1 h2
  · refine ⟨⟨fun _ => h1, fun _ => rfl⟩, ?_, ?_⟩ <;>
      constructor <;> intro h <;> first | (exfalso; revert h; decide) | omega
  · refine ⟨?_, ⟨fun _ => ⟨by omega, h2⟩, fun _ => rfl⟩, ?_⟩ <;>
      constructor <;> intro h <;> first | (exfalso; revert h; decide) | omega
  · refine ⟨?_, ?_, ⟨fun _ => ⟨by omega, by omega⟩, fun _ => rfl⟩⟩ <;>
      constructor <;> intro h <;> first | (exfalso; revert h; decide) | omega

/-- Claim C7 (amended): the validator's reported `shortage` field is
identically `remainingShortage` (which equals
`max(0, max(0, requiredQty - availableSelected) - transferFromSub)`),
not the pre-transfer shortage; `requiredQty` equals the PO quantity. -/
theorem C7_reported_shortage_is_remaining_shortage (invMap : String → Option InvRecord)
    (prodMap : String → Option ProdRecord) (safety : Int)
    (defaultMode : String) (item : PoLine) :
    let v := validateItem invMap prodMap safety defaultMode item
    v.required_qty = item.po_qty ∧
    v.shortage = v.remaining_shortage ∧
    v.remaining_shortage =
      max 0 (max 0 (v.required_qty - v.available_stock) - v.transfer_from_sub) := by
  intro v
  refine ⟨rfl, rfl, ?_⟩
  simp only [v, validateItem]

/-- Claim C10: the EMD palletizer always returns a non-empty pallet
list, and on the empty input it returns exactly one pallet with id
"P001", type "EMD_MIXED", an empty item list, `total_cases = 0` and
`est_height` equal to the pallet base height 6. -/
theorem C10_emd_never_empty (maxHeight : Int) :
    (∀ (mh : Int) (items : List EmdItem), emd_calculate_pallets mh items ≠ []) ∧
    (emd_calculate_pallets maxHeight []).map
        (fun p => (p.pallet_id, p.ptype, p.items, p.total_cases, p.est_height.toRat)) =
      [("P001", "EMD_MIXED", ([] : List EmdLine), (0 : Int), (6 : ℚ))] := by
  constructor
  · intro mh items
    simp only [emd_calculate_pallets]
    intro h
    rw [List.map_eq_nil_iff] at h
    exact absurd h (by simp)
  · have h0 : emd_calculate_pallets maxHeight [] = [emdFinish (emdFresh 1)] := rfl
    rw [h0]
    have h1 : emdFinish (emdFresh 1) =
        { pallet_id := "P001", ptype := "EMD_MIXED", items := [], total_cases := 0,
          est_height := ⟨60, 10⟩ } := by decide
    rw [h1]
    simp [PyFloat.toRat]
    norm_num

theorem packCandGo_eq_foldl (dc : String) (c : MixedCand) (n : Nat) (st : MixState) :
    packCandGo dc c n st = (List.replicate n c).foldl (mixIter dc) st := by
  induction n generalizing st with
  | zero => rfl
  | succ k ih => simp [packCandGo, List.replicate_succ, List.foldl_cons, ih]

/-- Claim C1 (amended): the second phase is Next-Fit by weight and
height, not First-Fit-Decreasing by volume — it processes the remainder
queue in input order (no sorting), one carton at a time into the single
open pallet, closing that pallet exactly when the next carton would push
the estimated weight above 2500 lb or the estimated stacked height
`((cartons // 10) + 1)·12 + 6` above 68 in; a remainder entry may be
split across consecutive pallets.  Formally, the phase-2 loop equals the
fold of the single-carton step over the in-order flattened carton
stream. -/
theorem C1_mixed_phase_is_next_fit (dc : String) (st : MixState) (cands : List MixedCand) :
    packMixed dc st cands = nextFitByLimits dc st cands := by
  induction cands generalizing st with
  | nil => rfl
  | cons c cs ih =>
      simp only [packMixed, List.foldl_cons, nextFitByLimits, List.flatMap_cons,
        List.foldl_append]
      rw [← nextFitByLimits, ← ih, ← packCandGo_eq_foldl]
      rfl

theorem maxCasesPerPallet_pos (i : OrderItem) : 1 ≤ maxCasesPerPallet i := by
  simp only [maxCasesPerPallet]
  split <;> omega

theorem linesTotal_addBox (cur : List PalletLine) (c : MixedCand) :
    linesTotal (addBox cur c) = linesTotal cur + 1 := by
  induction cur with
  | nil => simp [addBox, linesTotal]
  | cons l ls ih =>
      by_cases h : l.sku = c.sku <;> simp [addBox, h, linesTotal] at ih ⊢ <;> omega

theorem mixIter_inv (dc : String) (st : MixState) (c : MixedCand)
    (h0 : 0 ≤ linesTotal st.current) (h50 : linesTotal st.current ≤ 50) :
    (0 ≤ linesTotal (mixIter dc st c).current ∧
     linesTotal (mixIter dc st c).current ≤ 50) ∧
    (∀ p ∈ (mixIter dc st c).pallets, p ∈ st.pallets ∨ MixedMade p) := by
  simp only [mixIter]
  split
  · refine ⟨?_, fun p hp => ?_⟩
    · simp [linesTotal, addBox]
    · simp only [List.mem_append, List.mem_singleton] at hp
      rcases hp with h | h
      · exact Or.inl h
      · subst h
        exact Or.inr ⟨rfl, h50, rfl⟩
  · next hnc =>
      constructor
      · have hh : (Int.fdiv (linesTotal st.current) 10 + 1) * 12 + 6 ≤ 68 := by
          push_neg at hnc
          exact_mod_cast hnc.2
        have hd := Int.fdiv_add_fmod (linesTotal st.current) 10
        have hm1 : 0 ≤ Int.fmod (linesTotal st.current) 10 :=
          Int.fmod_nonneg' (linesTotal st.current) (by omega)
        have hm2 : Int.fmod (linesTotal st.current) 10 < 10 :=
          Int.fmod_lt_of_pos (linesTotal st.current) (by omega)
        constructor <;> simp only [linesTotal_addBox] <;> omega
      · intro p hp
        exact Or.inl hp

theorem packCandGo_inv (dc : String) (c : MixedCand) (n : Nat) (st : MixState)
    (h0 : 0 ≤ linesTotal st.current) (h50 : linesTotal st.current ≤ 50) :
    (0 ≤ linesTotal (packCandGo dc c n st).current ∧
     linesTotal (packCandGo dc c n st).current ≤ 50) ∧
    (∀ p ∈ (packCandGo dc c n st).pallets, p ∈ st.pallets ∨ MixedMade p) := by
  induction n generalizing st with
  | zero => exact ⟨⟨h0, h50⟩, fun p hp => Or.inl hp⟩
  | succ k ih =>
      obtain ⟨⟨a0, a50⟩, hmem⟩ := mixIter_inv dc st c h0 h50
      obtain ⟨hc, hm⟩ := ih (mixIter dc st c) a0 a50
      exact ⟨hc, fun p hp => (hm p hp).elim (fun h => hmem p h) Or.inr⟩

theorem packMixed_inv (dc : String) (cands : List MixedCand) (st : MixState)
    (h0 : 0 ≤ linesTotal st.current) (h50 : linesTotal st.current ≤ 50) :
    (0 ≤ linesTotal (packMixed dc st cands).current ∧
     linesTotal (packMixed dc st cands).current ≤ 50) ∧
    (∀ p ∈ (packMixed dc st cands).pallets, p ∈ st.pallets ∨ MixedMade p) := by
  induction cands generalizing st with
  | nil => exact ⟨⟨h0, h50⟩, fun p hp => Or.inl hp⟩
  | cons c cs ih =>
      obtain ⟨⟨a0, a50⟩, hmem⟩ := packCandGo_inv dc c c.qty.toNat st h0 h50
      obtain ⟨hc, hm⟩ := ih (packCand dc st c) a0 a50
      exact ⟨hc, fun p hp => (hm p hp).elim (fun h => hmem p h) Or.inr⟩

theorem flushMixed_mem (dc : String) (st : MixState)
    (h50 : linesTotal st.current ≤ 50) :
    ∀ p ∈ (flushMixed dc st).1, p ∈ st.pallets ∨ MixedMade p := by
  intro p hp
  simp only [flushMixed] at hp
  split at hp
  · exact Or.inl hp
  · simp only [List.mem_append, List.mem_singleton] at hp
    rcases hp with h | h
    · exact Or.inl h
    · subst h
      exact Or.inr ⟨rfl, h50, rfl⟩

theorem fullPalletsFor_shape (cnt : Nat) (i : OrderItem) (n : Nat) :
    ∀ p ∈ fullPalletsFor cnt i n, IsFullOf p i := by
  intro p hp
  simp only [fullPalletsFor, List.mem_map] at hp
  obtain ⟨k, _, rfl⟩ := hp
  exact ⟨rfl, rfl, rfl⟩

theorem fullStep_mem (st : P1State) (i : OrderItem) :
    ∀ p ∈ (fullStep st i).pallets, p ∈ st.pallets ∨ IsFullOf p i := by
  intro p hp
  simp only [fullStep, List.mem_append] at hp
  rcases hp with h | h
  · exact Or.inl h
  · exact Or.inr (fullPalletsFor_shape _ _ _ p h)

theorem foldl_fullStep_mem (items : List OrderItem) :
    ∀ st : P1State, ∀ p ∈ (items.foldl fullStep st).pallets,
      p ∈ st.pallets ∨ ∃ i ∈ items, IsFullOf p i := by
  induction items with
  | nil => exact fun st p hp => Or.inl hp
  | cons j js ih =>
      intro st p hp
      rcases ih (fullStep st j) p hp with h | ⟨i, hi, hfi⟩
      · rcases fullStep_mem st j p h with h2 | h2
        · exact Or.inl h2
        · exact Or.inr ⟨j, List.mem_cons_self j js, h2⟩
      · exact Or.inr ⟨i, List.mem_cons_of_mem j hi, hfi⟩

theorem processDC_mem (cnt : Nat) (dc : String) (its : List OrderItem) :
    ∀ p ∈ (processDC cnt dc its).1,
      (∃ i ∈ its, IsFullOf p i) ∨ MixedMade p := by
  intro p hp
  simp only [processDC] at hp
  set p1 := its.foldl fullStep { pallets := [], counter := cnt, mixed := [] } with hp1
  have hinit0 : (0 : Int) ≤ linesTotal ([] : List PalletLine) := by simp [linesTotal]
  have hinit50 : linesTotal ([] : List PalletLine) ≤ 50 := by simp [linesTotal]
  obtain ⟨⟨a0, a50⟩, hm⟩ := packMixed_inv dc p1.mixed
    { pallets := p1.pallets, counter := p1.counter, current := [], weight := (40 : PyFloat) }
    hinit0 hinit50
  rcases flushMixed_mem dc _ a50 p hp with h | h
  · rcases hm p h with h2 | h2
    · rcases foldl_fullStep_mem its _ p h2 with h3 | h3
      · simp at h3
      · exact Or.inl h3
    · exact Or.inr h2
  · exact Or.inr h

theorem foldl_groups_mem (Q : Pallet → Prop)
    (gs : List (String × List OrderItem))
    (h : ∀ (cnt : Nat), ∀ g ∈ gs, ∀ p ∈ (processDC cnt g.1 g.2).1, Q p) :
    ∀ acc : List Pallet × Nat, (∀ p ∈ acc.1, Q p) →
      ∀ p ∈ (gs.foldl
        (fun (acc : List Pallet × Nat) g =>
          let r := processDC acc.2 g.1 g.2
          (acc.1 ++ r.1, r.2)) acc).1, Q p := by
  induction gs with
  | nil => exact fun acc hacc p hp => hacc p hp
  | cons g gs2 ih =>
      intro acc hacc p hp
      refine ih (fun cnt g2 hg2 => h cnt g2 (List.mem_cons_of_mem g hg2)) _ ?_ p hp
      intro q hq
      simp only [List.mem_append] at hq
      rcases hq with h2 | h2
      · exact hacc q h2
      · exact h acc.2 g (List.mem_cons_self g gs2) q h2

theorem groupAdd_pred (P : OrderItem → Prop) (j : OrderItem) (hj : P j) :
    ∀ gs : List (String × List OrderItem),
      (∀ g ∈ gs, ∀ i ∈ g.2, P i) →
      ∀ g ∈ groupAdd gs j, ∀ i ∈ g.2, P i := by
  intro gs
  induction gs with
  | nil =>
      intro _ g hg i hi
      simp only [groupAdd, List.mem_singleton] at hg
      subst hg
      simp only [List.mem_singleton] at hi
      subst hi
      exact hj
  | cons e es ih =>
      intro hgs g hg i hi
      simp only [groupAdd] at hg
      by_cases hd : e.1 = j.dc_id
      · rw [if_pos hd] at hg
        rcases List.mem_cons.mp hg with h | h
        · subst h
          simp only [List.mem_append, List.mem_singleton] at hi
          rcases hi with h2 | h2
          · exact hgs e (List.mem_cons_self e es) i h2
          · subst h2; exact hj
        · exact hgs g (List.mem_cons_of_mem e h) i hi
      · rw [if_neg hd] at hg
        rcases List.mem_cons.mp hg with h | h
        · subst h
          exact hgs e (List.mem_cons_self e es) i hi
        · exact ih (fun g2 hg2 => hgs g2 (List.mem_cons_of_mem e hg2)) g h i hi

theorem dcGroups_pred (P : OrderItem → Prop) (items : List OrderItem)
    (h : ∀ i ∈ items, P i) :
    ∀ g ∈ dcGroups items, ∀ i ∈ g.2, P i := by
  have main : ∀ (js : List OrderItem) (gs : List (String × List OrderItem)),
      (∀ i ∈ js, P i) → (∀ g ∈ gs, ∀ i ∈ g.2, P i) →
      ∀ g ∈ js.foldl groupAdd gs, ∀ i ∈ g.2, P i := by
    intro js
    induction js with
    | nil => exact fun gs _ hgs => hgs
    | cons j js2 ih =>
        intro gs hjs hgs
        exact ih (groupAdd gs j)
          (fun i hi => hjs i (List.mem_cons_of_mem j hi))
          (groupAdd_pred P j (hjs j (List.mem_cons_self j js2)) gs hgs)
  exact main items [] h (by simp)

theorem calculate_pallets_mem (items : List OrderItem) :
    ∀ p ∈ calculate_pallets items,
      (∃ i ∈ items, IsFullOf p i) ∨ MixedMade p := by
  intro p hp
  simp only [calculate_pallets] at hp
  have hgrp := dcGroups_pred (fun i => i ∈ items) items (fun i hi => hi)
  refine foldl_groups_mem
    (fun q => (∃ i ∈ items, IsFullOf q i) ∨ MixedMade q)
    (dcGroups items) ?_ ([], 1) (by simp) p hp
  intro cnt g hg q hq
  rcases processDC_mem cnt g.1 g.2 q hq with ⟨i, hi, hfi⟩ | h
  · exact Or.inl ⟨i, hgrp g hg i hi, hfi⟩
  · exact Or.inr h

/-- Claim C2 (amended): a MIXED pallet's capacity is not bounded by the
fractional volume `Σ cartonQty_i / maxCartonsPerPallet_i` (see the
counterexample); what does hold is that every MIXED pallet carries at
most 50 cartons (the estimated-height closure rule caps a pallet at 50),
with `total_cases` equal to the sum of its line quantities. -/
theorem C2_mixed_pallet_carton_bound (items : List OrderItem) :
    ∀ p ∈ calculate_pallets items, p.ptype = "MIXED" →
      p.total_cases ≤ 50 ∧ p.total_cases = linesTotal p.items := by
  intro p hp hm
  rcases calculate_pallets_mem items p hp with ⟨i, _, hf, _, _⟩ | ⟨_, h50, hsum⟩
  · rw [hf] at hm
    exact absurd hm (by decide)
  · exact ⟨h50, hsum⟩

set_option maxRecDepth 40000 in
/-- Claim C2 (amended): a MIXED pallet's capacity is not bounded by the
fractional volume `Σ cartonQty_i / maxCartonsPerPallet_i` (see the
counterexample); what does hold is that every MIXED pallet carries at
most 50 cartons (the estimated-height closure rule caps a pallet at 50),
with `total_cases` equal to the sum of its line quantities. -/
theorem C2_mixed_pallet_carton_bound_witness :
    mixedC2.total_cases ≤ 50 ∧ mixedC2.total_cases = linesTotal mixedC2.items :=
  C2_mixed_pallet_carton_bound cexC2 mixedC2 (by decide) (by decide)

/-- Claim C3 (amended): every FULL pallet contains exactly one line
entry, for the SKU of some input item, holding exactly
`maxCasesPerPallet` cartons — the capacity computed from the carton
weight and height (Ti = 10, clamped to ≥ 1), not the per-item
`maxCartonsPerPallet` supplied in the input, which the packer ignores. -/
theorem C3_full_pallet_shape (items : List OrderItem) :
    ∀ p ∈ calculate_pallets items, p.ptype = "FULL" →
      ∃ i ∈ items,
        p.items = [{ sku := i.sku, qty := maxCasesPerPallet i, desc := i.desc }] ∧
        p.total_cases = maxCasesPerPallet i := by
  intro p hp hf
  rcases calculate_pallets_mem items p hp with ⟨i, hi, _, hitems, htot⟩ | ⟨hm, _, _⟩
  · exact ⟨i, hi, hitems, htot⟩
  · rw [hm] at hf
    exact absurd hf (by decide)

set_option maxRecDepth 40000 in
/-- Claim C3 (amended): every FULL pallet contains exactly one line
entry, for the SKU of some input item, holding exactly
`maxCasesPerPallet` cartons — the capacity computed from the carton
weight and height (Ti = 10, clamped to ≥ 1), not the per-item
`maxCartonsPerPallet` supplied in the input, which the packer ignores. -/
theorem C3_full_pallet_shape_witness :
    ∃ i ∈ cexC3,
      ({ pallet_id := "P001", dc_id := "1", ptype := "FULL",
         items := [{ sku := "A", qty := 60, desc := "" }], total_cases := 60,
         est_height := ⟨660, 10⟩, est_weight := ⟨940, 1⟩ } : Pallet).items =
        [{ sku := i.sku, qty := maxCasesPerPallet i, desc := i.desc }] ∧
      (60 : Int) = maxCasesPerPallet i :=
  C3_full_pallet_shape cexC3 _ (by decide) (by decide)

/-- Claim C5 (amended): an input line with `cartonQty = 0` is skipped
entirely (the phase-1 step leaves the state unchanged), but a line with
negative `cartonQty` is not: it emits no FULL pallet yet enqueues
`cartonQty mod maxCasesPerPallet` cartons (Python floor modulo, hence
nonnegative) as a mixed candidate.  Packing itself is total: it always
terminates and raises no error. -/
theorem C5_zero_and_negative_qty (st : P1State) (i : OrderItem) :
    (i.qty = 0 → fullStep st i = st) ∧
    (i.qty < 0 →
      (fullStep st i).pallets = st.pallets ∧
      (fullStep st i).mixed = st.mixed ++
        (if 0 < Int.fmod i.qty (maxCasesPerPallet i) then
          [{ sku := i.sku, qty := Int.fmod i.qty (maxCasesPerPallet i), desc := i.desc,
             box_weight := i.box_weight, box_height := i.box_height,
             pack_size := i.pack_size }]
        else [])) := by
  have hpos : 1 ≤ maxCasesPerPallet i := maxCasesPerPallet_pos i
  constructor
  · intro h0
    simp only [fullStep, h0, Int.zero_fdiv, Int.zero_fmod, Int.toNat_zero]
    simp [fullPalletsFor]
  · intro hneg
    have hfd : Int.fdiv i.qty (maxCasesPerPallet i) < 0 := by
      have hd := Int.fdiv_add_fmod i.qty (maxCasesPerPallet i)
      have hm1 : 0 ≤ Int.fmod i.qty (maxCasesPerPallet i) :=
        Int.fmod_nonneg' i.qty (by omega)
      have hm2 : Int.fmod i.qty (maxCasesPerPallet i) < maxCasesPerPallet i :=
        Int.fmod_lt_of_pos i.qty (by omega)
      nlinarith [hd, hm1, hm2]
    constructor
    · simp only [fullStep]
      rw [Int.toNat_of_nonpos (le_of_lt hfd)]
      simp [fullPalletsFor]
    · simp only [fullStep]
      split <;> simp_all

/-- Claim C5 (amended): an input line with `cartonQty = 0` is skipped
entirely (the phase-1 step leaves the state unchanged), but a line with
negative `cartonQty` is not: it emits no FULL pallet yet enqueues
`cartonQty mod maxCasesPerPallet` cartons (Python floor modulo, hence
nonnegative) as a mixed candidate.  Packing itself is total: it always
terminates and raises no error. -/
theorem C5_zero_and_negative_qty_witness :
    fullStep { pallets := [], counter := 1, mixed := [] } zeroItem =
      { pallets := [], counter := 1, mixed := [] } :=
  (C5_zero_and_negative_qty { pallets := [], counter := 1, mixed := [] } zeroItem).1 (by decide)

theorem candSumN_eq_candSum (cs : List MixedCand) (h : ∀ c ∈ cs, 0 ≤ c.qty) :
    candSumN cs = candSum cs := by
  induction cs with
  | nil => rfl
  | cons c cs2 ih =>
      simp only [candSumN, candSum, List.map_cons, List.sum_cons] at ih ⊢
      rw [Int.toNat_of_nonneg (h c (List.mem_cons_self c cs2)),
        ih (fun d hd => h d (List.mem_cons_of_mem c hd))]

theorem allCartons_append (ps qs : List Pallet) :
    allCartons (ps ++ qs) = allCartons ps + allCartons qs := by
  simp [allCartons, List.map_append, List.sum_append]

theorem mixIter_measure (dc : String) (st : MixState) (c : MixedCand) :
    allCartons (mixIter dc st c).pallets + linesTotal (mixIter dc st c).current =
      allCartons st.pallets + linesTotal st.current + 1 := by
  simp only [mixIter]
  split
  · rw [allCartons_append, linesTotal_addBox]
    simp [allCartons, palletCartons, linesTotal]
  · rw [linesTotal_addBox]
    omega

theorem packCandGo_measure (dc : String) (c : MixedCand) (n : Nat) (st : MixState) :
    allCartons (packCandGo dc c n st).pallets +
        linesTotal (packCandGo dc c n st).current =
      allCartons st.pallets + linesTotal st.current + n := by
  induction n generalizing st with
  | zero => simp [packCandGo]
  | succ k ih =>
      have h1 := mixIter_measure dc st c
      have h2 := ih (mixIter dc st c)
      simp only [packCandGo] at h2 ⊢
      omega

theorem packMixed_measure (dc : String) (cands : List MixedCand) (st : MixState) :
    allCartons (packMixed dc st cands).pallets +
        linesTotal (packMixed dc st cands).current =
      allCartons st.pallets + linesTotal st.current + candSumN cands := by
  induction cands generalizing st with
  | nil => simp [packMixed, candSumN]
  | cons c cs ih =>
      have h1 := packCandGo_measure dc c c.qty.toNat st
      have h2 := ih (packCand dc st c)
      simp only [packMixed, List.foldl_cons] at h2 ⊢
      simp only [candSumN, List.map_cons, List.sum_cons] at ih ⊢
      rw [h2, packCand, h1]
      simp only [candSumN]
      ring

theorem flushMixed_cartons (dc : String) (st : MixState) :
    allCartons (flushMixed dc st).1 =
      allCartons st.pallets + linesTotal st.current := by
  simp only [flushMixed]
  split
  · next h =>
      rw [List.isEmpty_iff] at h
      simp [h, linesTotal]
  · rw [allCartons_append]
    simp [allCartons, palletCartons]

theorem fullPalletsFor_cartons (cnt : Nat) (i : OrderItem) (n : Nat) :
    allCartons (fullPalletsFor cnt i n) = (n : Int) * maxCasesPerPallet i := by
  induction n with
  | zero => simp [fullPalletsFor, allCartons]
  | succ k ih =>
      have hsplit : fullPalletsFor cnt i (k + 1) =
          fullPalletsFor cnt i k ++
            [{ pallet_id := palletId (cnt + k), dc_id := i.dc_id, ptype := "FULL",
               items := [{ sku := i.sku, qty := maxCasesPerPallet i, desc := i.desc }],
               total_cases := maxCasesPerPallet i,
               est_height := (PyFloat.ofInt (maxCasesPerPallet i) / 10) * i.box_height + 6,
               est_weight := PyFloat.ofInt (maxCasesPerPallet i) * i.box_weight + 40 }] := by
        simp [fullPalletsFor, List.range_succ]
      rw [hsplit, allCartons_append, ih]
      simp [allCartons, palletCartons, linesTotal]
      ring

theorem fullStep_measure (st : P1State) (i : OrderItem) (hq : 0 ≤ i.qty) :
    allCartons (fullStep st i).pallets + candSum (fullStep st i).mixed =
      allCartons st.pallets + candSum st.mixed + i.qty := by
  have hpos := maxCasesPerPallet_pos i
  have hd := Int.fdiv_add_fmod i.qty (maxCasesPerPallet i)
  have hm1 : 0 ≤ Int.fmod i.qty (maxCasesPerPallet i) :=
    Int.fmod_nonneg' i.qty (by omega)
  have hfd : 0 ≤ Int.fdiv i.qty (maxCasesPerPallet i) :=
    Int.fdiv_nonneg hq (by omega)
  have key : ((Int.fdiv i.qty (maxCasesPerPallet i)).toNat : Int) *
      maxCasesPerPallet i = i.qty - Int.fmod i.qty (maxCasesPerPallet i) := by
    rw [Int.toNat_of_nonneg hfd, mul_comm]
    omega
  simp only [fullStep]
  rw [allCartons_append, fullPalletsFor_cartons, key]
  split
  · simp only [candSum, List.map_append, List.sum_append, List.map_cons,
      List.sum_cons, List.map_nil, List.sum_nil]
    omega
  · next h =>
      simp only [candSum]
      omega

theorem foldl_fullStep_measure (items : List OrderItem)
    (h : ∀ i ∈ items, 0 ≤ i.qty) :
    ∀ st : P1State,
      allCartons ((items.foldl fullStep st).pallets) +
          candSum ((items.foldl fullStep st).mixed) =
        allCartons st.pallets + candSum st.mixed + inputCartons items := by
  induction items with
  | nil => intro st; simp [inputCartons]
  | cons j js ih =>
      intro st
      have h1 := fullStep_measure st j (h j (List.mem_cons_self j js))
      have h2 := ih (fun i hi => h i (List.mem_cons_of_mem j hi)) (fullStep st j)
      simp only [List.foldl_cons] at h2 ⊢
      rw [h2, h1]
      simp only [inputCartons, List.map_cons, List.sum_cons]
      ring

theorem foldl_fullStep_mixed_pos (items : List OrderItem) :
    ∀ st : P1State, (∀ c ∈ st.mixed, 0 < c.qty) →
      ∀ c ∈ (items.foldl fullStep st).mixed, 0 < c.qty := by
  induction items with
  | nil => exact fun st h => h
  | cons j js ih =>
      intro st h
      refine ih (fullStep st j) ?_
      intro c hc
      simp only [fullStep] at hc
      split at hc
      · next hrem =>
          simp only [List.mem_append, List.mem_singleton] at hc
          rcases hc with h2 | h2
          · exact h c h2
          · subst h2; exact hrem
      · exact h c hc

theorem processDC_cartons (cnt : Nat) (dc : String) (its : List OrderItem)
    (h : ∀ i ∈ its, 0 ≤ i.qty) :
    allCartons (processDC cnt dc its).1 = inputCartons its := by
  simp only [processDC]
  set p1 := its.foldl fullStep { pallets := [], counter := cnt, mixed := [] } with hp1
  have hmeas := foldl_fullStep_measure its h
    { pallets := [], counter := cnt, mixed := [] }
  rw [← hp1] at hmeas
  have hpos : ∀ c ∈ p1.mixed, 0 < c.qty :=
    foldl_fullStep_mixed_pos its { pallets := [], counter := cnt, mixed := [] }
      (by simp)
  rw [flushMixed_cartons, packMixed_measure,
    candSumN_eq_candSum p1.mixed (fun c hc => le_of_lt (hpos c hc))]
  simp only [allCartons, candSum, linesTotal, List.map_nil, List.sum_nil] at hmeas ⊢
  omega

theorem groupAdd_cartons (gs : List (String × List OrderItem)) (j : OrderItem) :
    groupsCartons (groupAdd gs j) = groupsCartons gs + j.qty := by
  induction gs with
  | nil => simp [groupAdd, groupsCartons, inputCartons]
  | cons e es ih =>
      simp only [groupAdd]
      split
      · simp [groupsCartons, inputCartons, List.map_append, List.sum_append]
        ring
      · simp only [groupsCartons, List.map_cons, List.sum_cons] at ih ⊢
        omega

theorem dcGroups_cartons (items : List OrderItem) :
    groupsCartons (dcGroups items) = inputCartons items := by
  have main : ∀ (js : List OrderItem) (gs : List (String × List OrderItem)),
      groupsCartons (js.foldl groupAdd gs) =
        groupsCartons gs + inputCartons js := by
    intro js
    induction js with
    | nil => intro gs; simp [inputCartons]
    | cons j js2 ih =>
        intro gs
        simp only [List.foldl_cons]
        rw [ih (groupAdd gs j), groupAdd_cartons]
        simp only [inputCartons, List.map_cons, List.sum_cons]
        ring
  have h0 := main items []
  simpa [dcGroups, groupsCartons] using h0

theorem foldl_groups_cartons (gs : List (String × List OrderItem))
    (h : ∀ (cnt : Nat), ∀ g ∈ gs, allCartons (processDC cnt g.1 g.2).1 = inputCartons g.2) :
    ∀ acc : List Pallet × Nat,
      allCartons ((gs.foldl
        (fun (acc : List Pallet × Nat) g =>
          let r := processDC acc.2 g.1 g.2
          (acc.1 ++ r.1, r.2)) acc).1) =
      allCartons acc.1 + groupsCartons gs := by
  induction gs with
  | nil => intro acc; simp [groupsCartons]
  | cons g gs2 ih =>
      intro acc
      simp only [List.foldl_cons]
      rw [ih (fun cnt g2 hg2 => h cnt g2 (List.mem_cons_of_mem g hg2))]
      rw [allCartons_append, h acc.2 g (List.mem_cons_self g gs2)]
      simp only [groupsCartons, List.map_cons, List.sum_cons]
      ring

/-- Claim C4: for every packing run whose lines have nonnegative carton
quantities (and positive carton dimensions, so that the Python source
does not raise), the total number of cartons across all output pallets
equals the total input carton quantity — no cartons are created or
lost. -/
theorem C4_carton_conservation (items : List OrderItem)
    (hq : ∀ i ∈ items, 0 ≤ i.qty)
    (_hw : ∀ i ∈ items, (0 : PyFloat) < i.box_weight)
    (_hh : ∀ i ∈ items, (0 : PyFloat) < i.box_height) :
    allCartons (calculate_pallets items) = inputCartons items := by
  simp only [calculate_pallets]
  have hgrp := dcGroups_pred (fun i => 0 ≤ i.qty) items hq
  rw [foldl_groups_cartons (dcGroups items)
    (fun cnt g hg => processDC_cartons cnt g.1 g.2 (fun i hi => hgrp g hg i hi)) ([], 1)]
  simp only [allCartons, List.map_nil, List.sum_nil, zero_add]
  exact dcGroups_cartons items

set_option maxRecDepth 40000 in
/-- Claim C4 witness: on the concrete run `cexC1` (115 input cartons)
the output pallets carry 115 cartons in total. -/
theorem C4_carton_conservation_witness :
    allCartons (calculate_pallets cexC1) = inputCartons cexC1 :=
  C4_carton_conservation cexC1 (by decide) (by decide) (by decide)

theorem alGet_cons (e : String × Int) (m : List (String × Int)) (s : String) :
    alGet (e :: m) s = if e.1 = s then some e.2 else alGet m s := by
  by_cases h : e.1 = s
  · simp [alGet, List.find?_cons_of_pos, h]
  · simp [alGet, List.find?_cons_of_neg, h]

theorem alGetD_alAdd (m : List (String × Int)) (k s : String) (q : Int) :
    alGetD (alAdd m k q) s 0 = alGetD m s 0 + (if k = s then q else 0) := by
  induction m with
  | nil =>
      simp only [alAdd, alGetD]
      rw [alGet_cons]
      by_cases h : k = s <;> simp [alGet, h]
  | cons e es ih =>
      simp only [alAdd]
      by_cases hk : e.1 = k
      · rw [if_pos hk]
        simp only [alGetD]
        rw [alGet_cons, alGet_cons]
        by_cases hs : e.1 = s
        · have hks : k = s := by rw [← hk, hs]
          simp [hs, hks]
        · have hks : ¬ k = s := fun h => hs (by rw [hk, h])
          simp [hs, hks]
      · rw [if_neg hk]
        simp only [alGetD] at ih ⊢
        rw [alGet_cons, alGet_cons]
        by_cases hs : e.1 = s
        · have hks : ¬ k = s := fun h => hk (by rw [hs, h])
          simp [hs, hks]
        · simp only [if_neg hs]
          exact ih

theorem alGetD_skuTotals (items : List ParsedLine) (s : String) :
    alGetD (skuTotals items) s 0 =
      ((items.filter (fun i => i.sku = s)).map (fun i => i.po_qty)).sum := by
  have main : ∀ (js : List ParsedLine) (m : List (String × Int)),
      alGetD (js.foldl (fun m i => alAdd m i.sku i.po_qty) m) s 0 =
        alGetD m s 0 +
          ((js.filter (fun i => i.sku = s)).map (fun i => i.po_qty)).sum := by
    intro js
    induction js with
    | nil => intro m; simp
    | cons j js2 ih =>
        intro m
        simp only [List.foldl_cons]
        rw [ih (alAdd m j.sku j.po_qty), alGetD_alAdd]
        by_cases h : j.sku = s
        · simp [List.filter_cons, h]
          ring
        · simp [List.filter_cons, h]
  have h0 := main items []
  simpa [skuTotals, alGetD, alGet] using h0

/-- Claim C9 (amended): line items are *not* filtered by quantity before
aggregation — a SKU's aggregated total is the sum of the quantities of
all of its lines, including lines with `quantityUnits ≤ 0`, and a SKU
present in the breakdown totals but absent from the aggregate totals
always yields an `extra` mismatch record, even when its total quantity
is 0. -/
theorem C9_totals_unfiltered :
    (∀ (items : List ParsedLine) (sku : String),
       alGetD (skuTotals items) sku 0 =
         ((items.filter (fun i => i.sku = sku)).map (fun i => i.po_qty)).sum) ∧
    (∀ (mt dt : List (String × Int)), ∀ e ∈ dt, alGet mt e.1 = none →
       ({ sku := e.1, mother_qty := 0, dc_total := e.2, difference := e.2,
          status := "extra" } : Mismatch) ∈ mismatchesOf mt dt) := by
  constructor
  · exact alGetD_skuTotals
  · intro mt dt e he hnone
    simp only [mismatchesOf, List.mem_append]
    right
    simp only [List.mem_filterMap]
    exact ⟨e, he, by rw [if_pos hnone]⟩

/-- Claim C9 witness: the SKU "S2", present only in the breakdown (with
quantity 5) and absent from an empty aggregate, yields an `extra`
mismatch record. -/
theorem C9_totals_unfiltered_witness :
    ({ sku := "S2", mother_qty := 0, dc_total := 5, difference := 5,
       status := "extra" } : Mismatch) ∈ mismatchesOf [] [("S2", 5)] :=
  C9_totals_unfiltered.2 [] [("S2", 5)] ("S2", 5) (by decide) (by decide)

/-- Claim C8 (amended): the overall validity flag is true exactly when
there are no per-SKU mismatch records AND no validated mother line has a
positive remaining shortage (i.e. no inventory warnings) AND the sum of
aggregate quantities equals the sum of breakdown quantities — the
inventory-warning condition is the dependency the original claim
omitted. -/
theorem C8_validity_characterization (invMap : String → Option InvRecord)
    (prodMap : String → Option ProdRecord) (safety : Int)
    (motherItems dcItems : List ParsedLine) :
    (validate_po_pair invMap prodMap safety motherItems dcItems).is_valid = true ↔
      ((validate_po_pair invMap prodMap safety motherItems dcItems).mismatches = [] ∧
       (∀ v ∈ validate_po_data invMap prodMap safety "TOTAL" (motherItems.map toPoLine),
          v.remaining_shortage ≤ 0) ∧
       (validate_po_pair invMap prodMap safety motherItems dcItems).total_units_mother =
         (validate_po_pair invMap prodMap safety motherItems dcItems).total_units_dc) := by
  simp only [validate_po_pair, Bool.and_eq_true, List.isEmpty_iff, beq_iff_eq,
    List.map_eq_nil_iff, List.filter_eq_nil_iff]
  constructor
  · rintro ⟨⟨hms, hwarn⟩, hqm⟩
    refine ⟨hms, fun v hv => ?_, hqm.symm⟩
    have h2 := hwarn v hv
    simp at h2
    omega
  · rintro ⟨hms, hwarn, hqm⟩
    refine ⟨⟨hms, fun v hv => ?_⟩, hqm.symm⟩
    have h2 := hwarn v hv
    simp
    omega
